import Mathlib

/-!
Verification of the `yugen` regex front end: a shallow embedding of
`src/ast.rs`, `src/parser.rs`, `src/printer.rs` and `src/obfuscator.rs`,
followed by theorems about the parser, printer and obfuscator.

Conventions of the embedding:
- Rust `usize`/`u32` become `Nat` (the parser only ever adds small numbers,
  so overflow never matters for the properties below; `str::parse::<usize>`
  is modelled as failing only on an empty digit string).
- The parser state (`input`, `position`, `group_count`) is threaded
  explicitly; `Result<T, ParseError>` becomes the `Res` type below, which
  also has a `fault` outcome modelling a Rust index-out-of-bounds panic in
  `Parser::current` (`self.input[self.position]`), and a `fuelOut` outcome
  for the structural fuel of the mutually recursive parsing functions
  (the Rust functions recurse without fuel; `fuelOut` is never reached when
  the fuel exceeds what an input can consume, and top-level `Parser.parse`
  supplies such a fuel).
- Character-scanning loops recurse on the number of characters remaining at
  entry, which over-approximates their iteration count, so they stop exactly
  where the Rust loops stop.
- Rust `char::is_alphanumeric` (used for group names) is full Unicode; it is
  modelled by `Char.isAlphanum`, which agrees with it on ASCII. No theorem
  below depends on non-ASCII group names.
-/

/-! ## The tree model (`src/ast.rs`) -/

inductive AnchorType where
  | Start
  | End
deriving Repr, DecidableEq

inductive EscapedChar where
  | Tab
  | NewLine
  | CarriageReturn
  | FormFeed
  | VerticalTab
  | Null
  | Hex (n : Nat)
  | Unicode (n : Nat)
deriving Repr, DecidableEq

inductive CharacterTypeKind where
  | Word
  | NotWord
  | Digit
  | NotDigit
  | Whitespace
  | NotWhitespace
  | EscapedChar (e : EscapedChar)
deriving Repr, DecidableEq

inductive UnicodeCategoryKind where
  | Letter
  | Number
  | Punctuation
  | Symbol
  | Mark
  | Separator
  | Other
deriving Repr, DecidableEq

inductive GroupKind where
  | Capturing (name : Option String)
  | NonCapturing
deriving Repr, DecidableEq

inductive BackreferenceKind where
  | NumberBased (n : Nat)
  | NameBased (name : String)
deriving Repr, DecidableEq

inductive Quantifier where
  | ZeroOrMore (lazy : Bool)
  | OneOrMore (lazy : Bool)
  | ZeroOrOne (lazy : Bool)
  | Exactly (n : Nat)
  | AtLeast (n : Nat)
  | Range (min max : Nat)
deriving Repr, DecidableEq

structure RegexFlags where
  case_insensitive : Bool
  multiline : Bool
  dot_all : Bool
deriving Repr, DecidableEq

inductive LookaroundKind where
  | PositiveLookahead
  | NegativeLookahead
  | PositiveLookbehind
  | NegativeLookbehind
deriving Repr, DecidableEq

/-- The recursive node type of `src/ast.rs` (`RegexNode`). `Vec<RegexNode>`
becomes `List RegexNode`; the `Box` indirections disappear. -/
inductive RegexNode where
  | Literal (c : Char)
  | CharacterClass (negated : Bool) (chars : List Char)
  | Dot
  | Anchor (a : AnchorType)
  | WordBoundary
  | Quantified (node : RegexNode) (quantifier : Quantifier)
  | Group (kind : GroupKind) (nodes : List RegexNode)
  | Backreference (kind : BackreferenceKind)
  | CharacterType (kind : CharacterTypeKind)
  | UnicodeCategory (negated : Bool) (category : UnicodeCategoryKind)
  | Alternation (alternatives : List (List RegexNode))
  | Lookaround (kind : LookaroundKind) (nodes : List RegexNode)
  | FlagSet (flags : RegexFlags) (nodes : List RegexNode)

/-! ## Parser state and results (`src/parser.rs`) -/

/-- The fourteen variants of `ParseError` in `src/parser.rs`. -/
inductive ParseError where
  | UnexpectedEndOfInput
  | UnexpectedCharacter (c : Char)
  | UnclosedCharacterClass
  | InvalidQuantifier
  | InvalidNumber
  | UnclosedGroup
  | InvalidGroupSyntax
  | InvalidBackreference
  | InvalidGroupName
  | InvalidUnicodeCategory
  | InvalidHexNumber
  | InvalidUnicodeValue
  | EmptyAlternation
  | InvalidLookaround
deriving Repr, DecidableEq

/-- The mutable fields of `struct Parser`. -/
structure PState where
  input : List Char
  position : Nat
  group_count : Nat
deriving Repr, DecidableEq

/-- Outcome of running a parsing method from a given state. `ok` carries the
returned value and the updated state; `err` is `Err(ParseError)`; `fault`
models an index-out-of-bounds abort in `Parser::current` (a Rust panic);
`fuelOut` is the artefact of the structural fuel, never a source behaviour. -/
inductive Res (α : Type) where
  | ok (a : α) (st : PState)
  | err (e : ParseError)
  | fault
  | fuelOut

/-- Sequencing that propagates `err`, `fault` and `fuelOut`: the meaning of
Rust's `?` operator, plus the two abnormal outcomes of the model. -/
def Res.bind {α β : Type} (r : Res α) (f : α → PState → Res β) : Res β :=
  match r with
  | .ok a st => f a st
  | .err e => .err e
  | .fault => .fault
  | .fuelOut => .fuelOut

/-- The returned value of an `ok` outcome, discarding the final state. -/
def Res.value {α : Type} : Res α → Option α
  | .ok a _ => some a
  | _ => none

/-- `Parser::is_eof`. -/
def PState.isEof (st : PState) : Bool := st.input.length ≤ st.position

/-- The character `Parser::current` would read: `none` exactly when the read
`self.input[self.position]` would be out of bounds and panic. -/
def PState.currentOpt (st : PState) : Option Char := st.input.get? st.position

/-- `Parser::advance`. -/
def PState.advance (st : PState) : PState := { st with position := st.position + 1 }

/-- `Parser::check_char`: `!self.is_eof() && self.current() == c`. -/
def PState.checkChar (st : PState) (c : Char) : Bool :=
  match st.currentOpt with
  | some c2 => c2 == c
  | none => false

/-! ## Leaf parsing helpers (no mutual recursion) -/

/-- `char::to_digit(16)`. -/
def hexVal? (c : Char) : Option Nat :=
  if c.isDigit then some (c.toNat - 48)
  else if 'a' ≤ c ∧ c ≤ 'f' then some (c.toNat - 87)
  else if 'A' ≤ c ∧ c ≤ 'F' then some (c.toNat - 55)
  else none

/-- The digit loop of `Parser::parse_number`; the first argument bounds the
number of characters still to be examined (the loop advances once per
iteration, so `input.length - position` iterations always suffice). -/
def parseNumberAux : Nat → Nat → PState → Nat × PState
  | 0, num, st => (num, st)
  | k + 1, num, st =>
    match st.currentOpt with
    | none => (num, st)
    | some c =>
      if c.isDigit then parseNumberAux k (num * 10 + (c.toNat - 48)) st.advance
      else (num, st)

/-- `Parser::parse_number`: reads a maximal digit run (possibly empty,
yielding 0) and never fails. -/
def parseNumber (st : PState) : Nat × PState :=
  parseNumberAux (st.input.length - st.position) 0 st

/-- The digit-collecting loops of `Parser::parse_curly_quantifier`. -/
def collectDigitsAux : Nat → List Char → PState → List Char × PState
  | 0, acc, st => (acc, st)
  | k + 1, acc, st =>
    match st.currentOpt with
    | none => (acc, st)
    | some c =>
      if c.isDigit then collectDigitsAux k (acc ++ [c]) st.advance
      else (acc, st)

def collectDigits (st : PState) : List Char × PState :=
  collectDigitsAux (st.input.length - st.position) [] st

/-- `str::parse::<usize>` on a collected digit run: fails only when the run
is empty (overflow cannot matter over `Nat`). -/
def parseUsize (digits : List Char) : Option Nat :=
  if digits.isEmpty then none
  else some (digits.foldl (fun acc c => acc * 10 + (c.toNat - 48)) 0)

/-- `Parser::parse_hex`: exactly `count` hex digits. -/
def parseHexAux : Nat → Nat → PState → Res Nat
  | 0, value, st => .ok value st
  | k + 1, value, st =>
    if st.isEof then .err .InvalidHexNumber
    else
      match st.currentOpt with
      | none => .fault
      | some c =>
        match hexVal? c with
        | none => .err .InvalidHexNumber
        | some d => parseHexAux k (value * 16 + d) st.advance

def parseHex (count : Nat) (st : PState) : Res Nat := parseHexAux count 0 st

/-- The loop of `Parser::parse_unicode_value`: up to 6 hex digits, stopping
at `}` or end of input; returns the value and the digit count. -/
def parseUnicodeValueAux : Nat → Nat → Nat → PState → Res (Nat × Nat)
  | 0, value, count, st => .ok (value, count) st
  | k + 1, value, count, st =>
    match st.currentOpt with
    | none => .ok (value, count) st
    | some c =>
      if c = '}' then .ok (value, count) st
      else if count < 6 then
        match hexVal? c with
        | none => .err .InvalidUnicodeValue
        | some d => parseUnicodeValueAux k (value * 16 + d) (count + 1) st.advance
      else .ok (value, count) st

/-- `Parser::parse_unicode_value`. -/
def parseUnicodeValue (st : PState) : Res Nat :=
  Res.bind (parseUnicodeValueAux (st.input.length - st.position) 0 0 st) (fun vc st1 =>
    if vc.2 = 0 then .err .InvalidUnicodeValue else .ok vc.1 st1)

/-- `Parser::parse_unicode_category`, entered with the cursor just past the
`p`/`P`. The bare `match self.current()` after consuming `{` panics when the
input ends there (e.g. on the pattern `\p{`): that is the `.fault` arm. -/
def parseUnicodeCategory (negated : Bool) (st : PState) : Res RegexNode :=
  if st.checkChar '{' then
    let st1 := st.advance
    match st1.currentOpt with
    | none => .fault
    | some c =>
      match
        (match c with
         | 'L' => some UnicodeCategoryKind.Letter
         | 'N' => some UnicodeCategoryKind.Number
         | 'P' => some UnicodeCategoryKind.Punctuation
         | 'S' => some UnicodeCategoryKind.Symbol
         | 'M' => some UnicodeCategoryKind.Mark
         | 'Z' => some UnicodeCategoryKind.Separator
         | 'C' => some UnicodeCategoryKind.Other
         | _ => none) with
      | none => .err .InvalidUnicodeCategory
      | some category =>
        let st2 := st1.advance
        if st2.checkChar '}' then .ok (RegexNode.UnicodeCategory negated category) st2.advance
        else .err .InvalidUnicodeCategory
  else .err .InvalidUnicodeCategory

/-- The name loop of `Parser::parse_group_name`. -/
def groupNameAux : Nat → List Char → PState → Res (List Char)
  | 0, acc, st => .ok acc st
  | k + 1, acc, st =>
    match st.currentOpt with
    | none => .ok acc st
    | some c =>
      if c = '>' then .ok acc st
      else if c.isAlphanum || c = '_' then groupNameAux k (acc ++ [c]) st.advance
      else .err .InvalidGroupName

/-- `Parser::parse_group_name`. -/
def parseGroupName (st : PState) : Res String :=
  Res.bind (groupNameAux (st.input.length - st.position) [] st) (fun name st1 =>
    if st1.isEof || name.isEmpty then .err .InvalidGroupName
    else .ok (String.mk name) st1.advance)

/-- The character loop of `Parser::parse_character_class`: collect verbatim
up to an unescaped `]`; a backslash keeps the following character, failing
with `UnexpectedEndOfInput` when nothing follows it. -/
def classCharsAux : Nat → List Char → PState → Res (List Char)
  | 0, acc, st => .ok acc st
  | k + 1, acc, st =>
    match st.currentOpt with
    | none => .ok acc st
    | some c =>
      if c = ']' then .ok acc st
      else if c = '\\' then
        let st1 := st.advance
        match st1.currentOpt with
        | none => .err .UnexpectedEndOfInput
        | some c2 => classCharsAux k (acc ++ [c2]) st1.advance
      else classCharsAux k (acc ++ [c]) st.advance

/-- Body of `parse_character_class` after the negation flag is settled:
collect members, then demand the closing `]`. -/
def parseClassTail (negated : Bool) (st2 : PState) : Res RegexNode :=
  Res.bind (classCharsAux (st2.input.length - st2.position) [] st2) (fun chars st3 =>
    if st3.isEof then .err .UnclosedCharacterClass
    else .ok (RegexNode.CharacterClass negated chars) st3.advance)

/-- `Parser::parse_character_class`, entered at the `[`. The unguarded
`self.current()` deciding negation panics when the input ends right after
the `[`: that is the `.fault` arm. -/
def parseCharacterClass (st : PState) : Res RegexNode :=
  let st1 := st.advance
  match st1.currentOpt with
  | none => .fault
  | some c =>
    if c = '^' then parseClassTail true st1.advance else parseClassTail false st1

/-- `Parser::parse_escape`, entered with the cursor on the character after
the backslash. -/
def parseEscape (st : PState) : Res RegexNode :=
  if st.isEof then .err .UnexpectedEndOfInput
  else
    match st.currentOpt with
    | none => .fault
    | some c =>
      match c with
      | 'b' => .ok RegexNode.WordBoundary st.advance
      | 'k' =>
        let st1 := st.advance
        if st1.checkChar '<' then
          Res.bind (parseGroupName st1.advance) (fun name st2 =>
            .ok (RegexNode.Backreference (.NameBased name)) st2)
        else .err .InvalidBackreference
      | 'w' => .ok (RegexNode.CharacterType .Word) st.advance
      | 'W' => .ok (RegexNode.CharacterType .NotWord) st.advance
      | 'd' => .ok (RegexNode.CharacterType .Digit) st.advance
      | 'D' => .ok (RegexNode.CharacterType .NotDigit) st.advance
      | 's' => .ok (RegexNode.CharacterType .Whitespace) st.advance
      | 'S' => .ok (RegexNode.CharacterType .NotWhitespace) st.advance
      | 'p' => parseUnicodeCategory false st.advance
      | 'P' => parseUnicodeCategory true st.advance
      | 'n' => .ok (RegexNode.CharacterType (.EscapedChar .NewLine)) st.advance
      | 't' => .ok (RegexNode.CharacterType (.EscapedChar .Tab)) st.advance
      | 'r' => .ok (RegexNode.CharacterType (.EscapedChar .CarriageReturn)) st.advance
      | 'f' => .ok (RegexNode.CharacterType (.EscapedChar .FormFeed)) st.advance
      | 'v' => .ok (RegexNode.CharacterType (.EscapedChar .VerticalTab)) st.advance
      | '0' => .ok (RegexNode.CharacterType (.EscapedChar .Null)) st.advance
      | 'x' =>
        Res.bind (parseHex 2 st.advance) (fun v st1 =>
          .ok (RegexNode.CharacterType (.EscapedChar (.Hex v))) st1)
      | 'u' =>
        let st1 := st.advance
        if st1.checkChar '{' then
          Res.bind (parseUnicodeValue st1.advance) (fun v st2 =>
            if st2.checkChar '}' then
              .ok (RegexNode.CharacterType (.EscapedChar (.Unicode v))) st2.advance
            else .err .InvalidUnicodeValue)
        else .err .InvalidUnicodeValue
      | c' =>
        if c'.isDigit then
          let p := parseNumber st
          if p.1 = 0 ∨ st.group_count < p.1 then .err .InvalidBackreference
          else .ok (RegexNode.Backreference (.NumberBased p.1)) p.2
        else .ok (RegexNode.Literal c') st.advance

/-- `Parser::check_lazy`. -/
def checkLazy (st : PState) : Bool × PState :=
  if st.checkChar '?' then (true, st.advance) else (false, st)

/-- `Parser::parse_curly_quantifier`, entered just past the `{`. -/
def parseCurlyQuantifier (st : PState) : Res Quantifier :=
  let p := collectDigits st
  match parseUsize p.1 with
  | none => .err .InvalidNumber
  | some n =>
    if p.2.isEof then .err .UnexpectedEndOfInput
    else
      match p.2.currentOpt with
      | none => .fault
      | some c =>
        if c = '}' then .ok (.Exactly n) p.2.advance
        else if c = ',' then
          let st2 := p.2.advance
          if st2.isEof then .err .UnexpectedEndOfInput
          else
            match st2.currentOpt with
            | none => .fault
            | some c2 =>
              if c2 = '}' then .ok (.AtLeast n) st2.advance
              else
                let q := collectDigits st2
                if q.2.isEof || !(q.2.checkChar '}') then .err .InvalidQuantifier
                else
                  match parseUsize q.1 with
                  | none => .err .InvalidNumber
                  | some m => .ok (.Range n m) q.2.advance
        else .err .InvalidQuantifier

/-- `Parser::try_parse_quantifier`. -/
def tryParseQuantifier (st : PState) : Res (Option Quantifier) :=
  if st.isEof then .ok none st
  else
    match st.currentOpt with
    | none => .fault
    | some c =>
      if c = '*' then
        let lz := checkLazy st.advance
        .ok (some (.ZeroOrMore lz.1)) lz.2
      else if c = '+' then
        let lz := checkLazy st.advance
        .ok (some (.OneOrMore lz.1)) lz.2
      else if c = '?' then
        let lz := checkLazy st.advance
        .ok (some (.ZeroOrOne lz.1)) lz.2
      else if c = '{' then
        Res.bind (parseCurlyQuantifier st.advance) (fun q st1 => .ok (some q) st1)
      else .ok none st

/-- Lines 64-74 of `parse_alternation`: with more than one collected branch,
fail with `EmptyAlternation` if any branch is empty, otherwise wrap all
branches in one `Alternation`; with one branch, return it directly. The
empty-vector case models `.next().unwrap()` panicking (it is unreachable:
the loop starts from `vec![Vec::new()]` and never shrinks). -/
def finalizeAlternatives (alternatives : List (List RegexNode)) (st : PState) :
    Res (List RegexNode) :=
  if 1 < alternatives.length then
    if alternatives.any List.isEmpty then .err .EmptyAlternation
    else .ok [RegexNode.Alternation alternatives] st
  else
    match alternatives with
    | [] => .fault
    | a :: _ => .ok a st

/-- `if let Some(current_alt) = alternatives.last_mut() { current_alt.push(node) }`. -/
def pushLast (alternatives : List (List RegexNode)) (node : RegexNode) :
    List (List RegexNode) :=
  match alternatives with
  | [] => []
  | [a] => [a ++ [node]]
  | a :: rest => a :: pushLast rest node

/-- `if self.is_eof() || self.current() != ')' { Err(UnclosedGroup) }` then
`advance` and wrap: the closing step shared by every `parse_group` branch. -/
def expectCloseParen (node : RegexNode) (st : PState) : Res RegexNode :=
  if st.isEof then .err .UnclosedGroup
  else
    match st.currentOpt with
    | none => .fault
    | some c => if c = ')' then .ok node st.advance else .err .UnclosedGroup

/-! ## The mutually recursive core of the parser

`parse_alternation`, its `while` loop, `parse_node` and `parse_group` call
each other; the `fuel` argument makes the recursion structural. -/

mutual

/-- `Parser::parse_alternation` (lines 43-75): run the collection loop
starting from one empty branch, then finalize. -/
def parseAlternation (fuel : Nat) (st : PState) : Res (List RegexNode) :=
  match fuel with
  | 0 => .fuelOut
  | fuel + 1 => Res.bind (parseAltLoop fuel [[]] st) finalizeAlternatives

/-- The `while !self.is_eof()` loop of `parse_alternation`: `|` closes the
current branch and opens a new one, `)` stops, anything else parses one node
and appends it to the last branch. -/
def parseAltLoop (fuel : Nat) (alternatives : List (List RegexNode)) (st : PState) :
    Res (List (List RegexNode)) :=
  match fuel with
  | 0 => .fuelOut
  | fuel + 1 =>
    if st.isEof then .ok alternatives st
    else
      match st.currentOpt with
      | none => .fault
      | some c =>
        if c = '|' then parseAltLoop fuel (alternatives ++ [[]]) st.advance
        else if c = ')' then .ok alternatives st
        else
          Res.bind (parseNode fuel st) (fun node st1 =>
            parseAltLoop fuel (pushLast alternatives node) st1)

/-- `Parser::parse_node` (lines 77-114): dispatch on the current character,
then try a trailing quantifier. -/
def parseNode (fuel : Nat) (st : PState) : Res RegexNode :=
  match fuel with
  | 0 => .fuelOut
  | fuel + 1 =>
    if st.isEof then .err .UnexpectedEndOfInput
    else
      match st.currentOpt with
      | none => .fault
      | some c =>
        Res.bind
          (if c = '.' then .ok RegexNode.Dot st.advance
           else if c = '^' then .ok (RegexNode.Anchor .Start) st.advance
           else if c = '$' then .ok (RegexNode.Anchor .End) st.advance
           else if c = '\\' then parseEscape st.advance
           else if c = '[' then parseCharacterClass st
           else if c = '(' then parseGroup fuel st
           else .ok (RegexNode.Literal c) st.advance)
          (fun node st1 =>
            if st1.isEof then .ok node st1
            else
              Res.bind (tryParseQuantifier st1) (fun q st2 =>
                match q with
                | some quant => .ok (RegexNode.Quantified node quant) st2
                | none => .ok node st2))

/-- `Parser::parse_group` (lines 239-313), entered at the `(`. The bare
`match self.current()` after consuming `(?` panics when the input ends there
(e.g. on the pattern `(?`): that is the `.fault` arm. Note that only the
plain-group branch increments `group_count`; there is no inline-flag branch,
so `(?i...` falls through to `InvalidGroupSyntax`. -/
def parseGroup (fuel : Nat) (st : PState) : Res RegexNode :=
  match fuel with
  | 0 => .fuelOut
  | fuel + 1 =>
    let st1 := st.advance
    if st1.checkChar '?' then
      let st2 := st1.advance
      match st2.currentOpt with
      | none => .fault
      | some c =>
        if c = ':' then
          Res.bind (parseAlternation fuel st2.advance) (fun nodes st3 =>
            expectCloseParen (RegexNode.Group .NonCapturing nodes) st3)
        else if c = '<' then
          let st3 := st2.advance
          if st3.checkChar '=' || st3.checkChar '!' then
            Res.bind (parseAlternation fuel st3.advance) (fun nodes st4 =>
              expectCloseParen
                (RegexNode.Lookaround
                  (if st3.checkChar '!' then .NegativeLookbehind else .PositiveLookbehind)
                  nodes) st4)
          else
            Res.bind (parseGroupName st3) (fun name st4 =>
              Res.bind (parseAlternation fuel st4) (fun nodes st5 =>
                expectCloseParen (RegexNode.Group (.Capturing (some name)) nodes) st5))
        else if c = '=' || c = '!' then
          Res.bind (parseAlternation fuel st2.advance) (fun nodes st3 =>
            expectCloseParen
              (RegexNode.Lookaround
                (if c == '!' then .NegativeLookahead else .PositiveLookahead)
                nodes) st3)
        else .err .InvalidGroupSyntax
    else
      let st2 : PState := { st1 with group_count := st1.group_count + 1 }
      Res.bind (parseAlternation fuel st2) (fun nodes st3 =>
        expectCloseParen (RegexNode.Group (.Capturing none) nodes) st3)

end

/-- Fuel that comfortably dominates the recursion depth and loop iterations
for an input of the given length (each unit of nesting or consumed character
costs at most a handful of fuel frames). -/
def parserFuel (s : List Char) : Nat := 8 * s.length + 16

/-- `Parser::new(input).parse()`: parse a whole pattern string. -/
def Parser.parse (pattern : String) : Res (List RegexNode) :=
  parseAlternation (parserFuel pattern.data) (PState.mk pattern.data 0 0)

/-! ## The printer (`src/printer.rs`) -/

/-- Uppercase hexadecimal digit, as produced by Rust's `{:X}` formatting. -/
def hexDigitU (n : Nat) : Char :=
  if n < 10 then Char.ofNat (48 + n) else Char.ofNat (55 + n)

def toHexAux : Nat → Nat → List Char → List Char
  | 0, _, acc => acc
  | k + 1, n, acc => if n = 0 then acc else toHexAux k (n / 16) (hexDigitU (n % 16) :: acc)

/-- Rust `format!("{:X}", n)`: uppercase hex, no leading zeros, `"0"` for 0. -/
def toHexU (n : Nat) : String :=
  if n = 0 then "0" else String.mk (toHexAux (n + 1) n [])

/-- Rust `format!("{:02X}", n)`: uppercase hex zero-padded to width 2. -/
def toHex02 (n : Nat) : String :=
  if n < 16 then "0" ++ toHexU n else toHexU n

/-- `Printer::print_char`: a `\u{HEX}` escape of the code point when
`use_unicode_escapes` is set, the character itself otherwise. -/
def printChar (useUnicodeEscapes : Bool) (c : Char) : String :=
  if useUnicodeEscapes then "\\u\x7b" ++ toHexU c.toNat ++ "\x7d"
  else c.toString

/-- `Printer::print_quantifier`. -/
def printQuantifier : Quantifier → String
  | .ZeroOrMore lazy => if lazy then "*?" else "*"
  | .OneOrMore lazy => if lazy then "+?" else "+"
  | .ZeroOrOne lazy => if lazy then "??" else "?"
  | .Exactly n => "\x7b" ++ Nat.repr n ++ "\x7d"
  | .AtLeast n => "\x7b" ++ Nat.repr n ++ ",\x7d"
  | .Range mn mx => "\x7b" ++ Nat.repr mn ++ "," ++ Nat.repr mx ++ "\x7d"

/-- `Printer::print_escaped_char`. -/
def printEscapedChar : EscapedChar → String
  | .Tab => "\\t"
  | .NewLine => "\\n"
  | .CarriageReturn => "\\r"
  | .FormFeed => "\\f"
  | .VerticalTab => "\\v"
  | .Null => "\\0"
  | .Hex n => "\\x" ++ toHex02 n
  | .Unicode n => "\\u\x7b" ++ toHexU n ++ "\x7d"

mutual

/-- `Printer::print_node`. The final wildcard arm is the source's
`_ => String::new()`: `Backreference`, `UnicodeCategory`, `Lookaround` and
`FlagSet` all render as the empty string. -/
def printNode (esc : Bool) : RegexNode → String
  | .Literal c => printChar esc c
  | .CharacterClass negated chars =>
    "[" ++ (if negated then "^" else "") ++ String.join (chars.map (printChar esc)) ++ "]"
  | .Dot => "."
  | .Anchor .Start => "^"
  | .Anchor .End => "$"
  | .WordBoundary => "\\b"
  | .Quantified node q => printNode esc node ++ printQuantifier q
  | .Group (.Capturing none) nodes => "(" ++ printList esc nodes ++ ")"
  | .Group (.Capturing (some name)) nodes => "(?<" ++ name ++ ">" ++ printList esc nodes ++ ")"
  | .Group .NonCapturing nodes => "(?:" ++ printList esc nodes ++ ")"
  | .Alternation alternatives => printAlts esc alternatives
  | .CharacterType .Word => "\\w"
  | .CharacterType .NotWord => "\\W"
  | .CharacterType .Digit => "\\d"
  | .CharacterType .NotDigit => "\\D"
  | .CharacterType .Whitespace => "\\s"
  | .CharacterType .NotWhitespace => "\\S"
  | .CharacterType (.EscapedChar e) => printEscapedChar e
  | _ => ""

/-- `Printer::print` restricted to its recursive use: map `print_node` over
the sequence and concatenate (`join("")`). -/
def printList (esc : Bool) : List RegexNode → String
  | [] => ""
  | n :: ns => printNode esc n ++ printList esc ns

/-- The `Alternation` arm's `join("|")` over the printed branches. -/
def printAlts (esc : Bool) : List (List RegexNode) → String
  | [] => ""
  | [a] => printList esc a
  | a :: rest => printList esc a ++ "|" ++ printAlts esc rest

end

/-- `Printer::new(esc).print(ast)`. -/
def Printer.print (esc : Bool) (ast : List RegexNode) : String := printList esc ast

/-! ## The obfuscator (`src/obfuscator.rs`) -/

/-- `Obfuscator::obfuscate_literal`. -/
def obfuscateLiteral (c : Char) : RegexNode := .CharacterClass false [c]

mutual

/-- `Obfuscator::obfuscate_node`. The final wildcard arm is the source's
`_ => node`: `Dot`, `Anchor`, `WordBoundary`, `Backreference`,
`CharacterType`, `UnicodeCategory`, `Lookaround` and `FlagSet` are returned
unchanged (in particular the last two are NOT recursed into). -/
def obfuscateNode : RegexNode → RegexNode
  | .Literal c => obfuscateLiteral c
  | .CharacterClass negated chars =>
    if negated then .CharacterClass negated chars
    else
      .Group .NonCapturing
        [.Alternation (chars.map (fun c => [RegexNode.CharacterClass false [c]]))]
  | .Quantified node q => .Quantified (obfuscateNode node) q
  | .Group kind nodes => .Group kind (obfuscateList nodes)
  | .Alternation alternatives => .Alternation (obfuscateAlts alternatives)
  | node => node

/-- `nodes.into_iter().map(|n| self.obfuscate_node(n)).collect()`. -/
def obfuscateList : List RegexNode → List RegexNode
  | [] => []
  | n :: ns => obfuscateNode n :: obfuscateList ns

/-- The `Alternation` arm's map over branches. -/
def obfuscateAlts : List (List RegexNode) → List (List RegexNode)
  | [] => []
  | a :: rest => obfuscateList a :: obfuscateAlts rest

end

/-- `Obfuscator::obfuscate`: map `obfuscate_node` over the top-level
sequence (the unused `rng` field plays no role). -/
def Obfuscator.obfuscate (ast : List RegexNode) : List RegexNode := obfuscateList ast

/-! ## The Alternation shape invariant -/

mutual

/-- Every `Alternation` node in the tree has at least two branches, none of
which is an empty sequence (the data-model invariant of the spec). -/
inductive GoodNode : RegexNode → Prop
  | literal (c : Char) : GoodNode (.Literal c)
  | characterClass (negated : Bool) (chars : List Char) :
      GoodNode (.CharacterClass negated chars)
  | dot : GoodNode .Dot
  | anchor (a : AnchorType) : GoodNode (.Anchor a)
  | wordBoundary : GoodNode .WordBoundary
  | quantified {node : RegexNode} (q : Quantifier) :
      GoodNode node → GoodNode (.Quantified node q)
  | group (kind : GroupKind) {nodes : List RegexNode} :
      GoodList nodes → GoodNode (.Group kind nodes)
  | backreference (kind : BackreferenceKind) : GoodNode (.Backreference kind)
  | characterType (kind : CharacterTypeKind) : GoodNode (.CharacterType kind)
  | unicodeCategory (negated : Bool) (category : UnicodeCategoryKind) :
      GoodNode (.UnicodeCategory negated category)
  | alternation {alternatives : List (List RegexNode)} :
      2 ≤ alternatives.length → GoodAlts alternatives →
      GoodNode (.Alternation alternatives)
  | lookaround (kind : LookaroundKind) {nodes : List RegexNode} :
      GoodList nodes → GoodNode (.Lookaround kind nodes)
  | flagSet (flags : RegexFlags) {nodes : List RegexNode} :
      GoodList nodes → GoodNode (.FlagSet flags nodes)

inductive GoodList : List RegexNode → Prop
  | nil : GoodList []
  | cons {n : RegexNode} {ns : List RegexNode} :
      GoodNode n → GoodList ns → GoodList (n :: ns)

inductive GoodAlts : List (List RegexNode) → Prop
  | nil : GoodAlts []
  | cons {a : List RegexNode} {alternatives : List (List RegexNode)} :
      a ≠ [] → GoodList a → GoodAlts alternatives → GoodAlts (a :: alternatives)

end

/-- Branches collected mid-loop: every node already pushed is good, but
branches may still be empty and there may be any number of them. -/
def GoodBranches (alternatives : List (List RegexNode)) : Prop :=
  ∀ a ∈ alternatives, GoodList a

/-- Discriminator for the one `ParseError` variant no code path constructs. -/
def isUCErr {α : Type} : Res α → Bool
  | .err (.UnexpectedCharacter _) => true
  | _ => false

/-! ## Infrastructure lemmas -/

theorem Res.bind_eq_ok_iff {α β : Type} {r : Res α} {f : α → PState → Res β}
    {b : β} {st' : PState} :
    Res.bind r f = .ok b st' ↔ ∃ a st1, r = .ok a st1 ∧ f a st1 = .ok b st' := by
  cases r with
  | ok a st => exact ⟨fun h => ⟨a, st, rfl, h⟩,
      fun ⟨a1, st1, h1, h2⟩ => by cases h1; exact h2⟩
  | err e => simp [Res.bind]
  | fault => simp [Res.bind]
  | fuelOut => simp [Res.bind]

theorem goodList_append : ∀ {ns ms : List RegexNode},
    GoodList ns → GoodList ms → GoodList (ns ++ ms)
  | [], _, _, h2 => h2
  | n :: ns, ms, h1, h2 => by
    cases h1 with
    | cons hn hns => exact .cons hn (goodList_append hns h2)

theorem goodAlts_of : ∀ {alternatives : List (List RegexNode)},
    (∀ a ∈ alternatives, GoodList a) → (∀ a ∈ alternatives, a ≠ []) → GoodAlts alternatives
  | [], _, _ => .nil
  | a :: alts, h1, h2 =>
    .cons (h2 a (by simp)) (h1 a (by simp))
      (goodAlts_of (fun b hb => h1 b (by simp [hb])) (fun b hb => h2 b (by simp [hb])))

theorem goodBranches_singleton_empty : GoodBranches [[]] := by
  intro a ha
  simp at ha
  subst ha
  exact .nil

theorem goodBranches_append_empty {alts : List (List RegexNode)}
    (h : GoodBranches alts) : GoodBranches (alts ++ [[]]) := by
  intro a ha
  rcases List.mem_append.mp ha with hl | hr
  · exact h a hl
  · simp at hr; subst hr; exact .nil

theorem goodBranches_pushLast : ∀ {alts : List (List RegexNode)} {node : RegexNode},
    GoodBranches alts → GoodNode node → GoodBranches (pushLast alts node)
  | [], node, h, _ => by simpa [pushLast] using h
  | [a], node, h, hn => by
    intro b hb
    simp [pushLast] at hb
    subst hb
    exact goodList_append (h a (by simp)) (.cons hn .nil)
  | a :: a2 :: rest, node, h, hn => by
    intro b hb
    simp only [pushLast, List.mem_cons] at hb
    rcases hb with rfl | hb
    · exact h b (by simp)
    · exact @goodBranches_pushLast (a2 :: rest) node
        (fun x hx => h x (by simp [hx])) hn b hb

theorem finalizeAlternatives_good {alts : List (List RegexNode)} {st : PState}
    {ns : List RegexNode} {st' : PState}
    (hg : GoodBranches alts) (h : finalizeAlternatives alts st = .ok ns st') :
    GoodList ns := by
  unfold finalizeAlternatives at h
  split at h
  · split at h
    · exact Res.noConfusion h
    · injection h with h1 h2
      subst h1
      rename_i hlen hany
      refine .cons (.alternation (by omega) ?_) .nil
      refine goodAlts_of hg ?_
      intro a ha hempty
      subst hempty
      exact hany (List.any_eq_true.mpr ⟨[], ha, rfl⟩)
  · split at h
    · exact Res.noConfusion h
    · injection h with h1 h2
      subst h1
      exact hg _ (List.mem_cons_self _ _)


theorem parseUnicodeCategory_good {negated : Bool} {st : PState}
    {n : RegexNode} {st' : PState}
    (h : parseUnicodeCategory negated st = .ok n st') : GoodNode n := by
  unfold parseUnicodeCategory at h
  dsimp only at h
  repeat' split at h
  all_goals first
    | exact Res.noConfusion h
    | (cases h; constructor)

theorem parseClassTail_good {negated : Bool} {st : PState} {n : RegexNode} {st' : PState}
    (h : parseClassTail negated st = .ok n st') : GoodNode n := by
  unfold parseClassTail at h
  rw [Res.bind_eq_ok_iff] at h
  obtain ⟨chars, st3, h1, h2⟩ := h
  split at h2
  · exact Res.noConfusion h2
  · cases h2; constructor

theorem parseCharacterClass_good {st : PState} {n : RegexNode} {st' : PState}
    (h : parseCharacterClass st = .ok n st') : GoodNode n := by
  unfold parseCharacterClass at h
  dsimp only at h
  repeat' split at h
  all_goals first
    | exact Res.noConfusion h
    | exact parseClassTail_good h

theorem parseEscape_good {st : PState} {n : RegexNode} {st' : PState}
    (h : parseEscape st = .ok n st') : GoodNode n := by
  unfold parseEscape at h
  dsimp only at h
  repeat' split at h
  all_goals try exact Res.noConfusion h
  all_goals try (cases h; constructor)
  all_goals try exact parseUnicodeCategory_good h
  all_goals rw [Res.bind_eq_ok_iff] at h
  all_goals obtain ⟨v, st1, h1, h2⟩ := h
  all_goals repeat' split at h2
  all_goals first
    | exact Res.noConfusion h2
    | (cases h2; constructor)

theorem expectCloseParen_ok {node : RegexNode} {st : PState} {n : RegexNode} {st' : PState}
    (h : expectCloseParen node st = .ok n st') : n = node := by
  unfold expectCloseParen at h
  repeat' split at h
  all_goals first
    | exact Res.noConfusion h
    | (cases h; rfl)

theorem quantWrap_good {node : RegexNode} {st1 : PState} {n : RegexNode} {st' : PState}
    (hnode : GoodNode node)
    (h : (if st1.isEof then Res.ok node st1
          else Res.bind (tryParseQuantifier st1) (fun q st2 =>
            match q with
            | some quant => Res.ok (RegexNode.Quantified node quant) st2
            | none => Res.ok node st2)) = Res.ok n st') : GoodNode n := by
  split at h
  · cases h; exact hnode
  · rw [Res.bind_eq_ok_iff] at h
    obtain ⟨q, st2, h1, h2⟩ := h
    cases q with
    | none => cases h2; exact hnode
    | some quant => cases h2; exact .quantified _ hnode

theorem goodMaster : ∀ fuel : Nat,
    (∀ st ns st', parseAlternation fuel st = .ok ns st' → GoodList ns) ∧
    (∀ alts st alts' st', parseAltLoop fuel alts st = .ok alts' st' →
        GoodBranches alts → GoodBranches alts') ∧
    (∀ st n st', parseNode fuel st = .ok n st' → GoodNode n) ∧
    (∀ st n st', parseGroup fuel st = .ok n st' → GoodNode n) := by
  intro fuel
  induction fuel with
  | zero =>
    exact ⟨fun st ns st' h => Res.noConfusion h,
           fun alts st alts' st' h _ => Res.noConfusion h,
           fun st n st' h => Res.noConfusion h,
           fun st n st' h => Res.noConfusion h⟩
  | succ fuel ih =>
    obtain ⟨ihA, ihL, ihN, ihG⟩ := ih
    refine ⟨?_, ?_, ?_, ?_⟩
    · -- parseAlternation
      intro st ns st' h
      simp only [parseAlternation] at h
      rw [Res.bind_eq_ok_iff] at h
      obtain ⟨alts, st1, h1, h2⟩ := h
      exact finalizeAlternatives_good (ihL _ _ _ _ h1 goodBranches_singleton_empty) h2
    · -- parseAltLoop
      intro alts st alts' st' h hg
      simp only [parseAltLoop] at h
      repeat' split at h
      all_goals try exact Res.noConfusion h
      all_goals try (cases h; exact hg)
      all_goals try exact ihL _ _ _ _ h (goodBranches_append_empty hg)
      all_goals rw [Res.bind_eq_ok_iff] at h
      all_goals obtain ⟨node, st1, h1, h2⟩ := h
      all_goals exact ihL _ _ _ _ h2 (goodBranches_pushLast hg (ihN _ _ _ h1))
    · -- parseNode
      intro st n st' h
      simp only [parseNode] at h
      repeat' split at h
      all_goals try exact Res.noConfusion h
      all_goals rw [Res.bind_eq_ok_iff] at h
      all_goals obtain ⟨node, st1, hbase, hrest⟩ := h
      all_goals refine quantWrap_good ?_ hrest
      all_goals first
        | exact parseEscape_good hbase
        | exact parseCharacterClass_good hbase
        | exact ihG _ _ _ hbase
        | (cases hbase; constructor)
    · -- parseGroup
      intro st n st' h
      simp only [parseGroup] at h
      try dsimp only at h
      repeat' split at h
      all_goals try exact Res.noConfusion h
      all_goals rw [Res.bind_eq_ok_iff] at h
      all_goals obtain ⟨a1, s1, h1, h2⟩ := h
      all_goals first
        | (cases expectCloseParen_ok h2
           first
             | exact .group _ (ihA _ _ _ h1)
             | exact .lookaround _ (ihA _ _ _ h1))
        | (rw [Res.bind_eq_ok_iff] at h2
           obtain ⟨a2, s2, h2a, h2b⟩ := h2
           cases expectCloseParen_ok h2b
           exact .group _ (ihA _ _ _ h2a))


/-! ### no code path returns UnexpectedCharacter -/

theorem isUCErr_bind {α β : Type} {r : Res α} {f : α → PState → Res β}
    (h1 : isUCErr r = false) (h2 : ∀ a st, isUCErr (f a st) = false) :
    isUCErr (Res.bind r f) = false := by
  cases r with
  | ok a st => simpa only [Res.bind] using h2 a st
  | err e => cases e <;> simp_all [Res.bind, isUCErr]
  | fault => simp only [Res.bind, isUCErr]
  | fuelOut => simp only [Res.bind, isUCErr]

theorem parseHexAux_noUC : ∀ (k value : Nat) (st : PState),
    isUCErr (parseHexAux k value st) = false
  | 0, _, _ => rfl
  | k + 1, v, st => by
    unfold parseHexAux
    try dsimp only
    repeat' split
    all_goals first | rfl | exact parseHexAux_noUC k _ _

theorem parseUnicodeValueAux_noUC : ∀ (k value count : Nat) (st : PState),
    isUCErr (parseUnicodeValueAux k value count st) = false
  | 0, _, _, _ => rfl
  | k + 1, v, cnt, st => by
    unfold parseUnicodeValueAux
    try dsimp only
    repeat' split
    all_goals first | rfl | exact parseUnicodeValueAux_noUC k _ _ _

theorem parseUnicodeValue_noUC (st : PState) : isUCErr (parseUnicodeValue st) = false := by
  unfold parseUnicodeValue
  refine isUCErr_bind (parseUnicodeValueAux_noUC _ _ _ _) ?_
  intro a st1
  split <;> rfl

theorem groupNameAux_noUC : ∀ (k : Nat) (acc : List Char) (st : PState),
    isUCErr (groupNameAux k acc st) = false
  | 0, _, _ => rfl
  | k + 1, acc, st => by
    unfold groupNameAux
    try dsimp only
    repeat' split
    all_goals first | rfl | exact groupNameAux_noUC k _ _

theorem parseGroupName_noUC (st : PState) : isUCErr (parseGroupName st) = false := by
  unfold parseGroupName
  refine isUCErr_bind (groupNameAux_noUC _ _ _) ?_
  intro a st1
  split <;> rfl

theorem classCharsAux_noUC : ∀ (k : Nat) (acc : List Char) (st : PState),
    isUCErr (classCharsAux k acc st) = false
  | 0, _, _ => rfl
  | k + 1, acc, st => by
    unfold classCharsAux
    try dsimp only
    repeat' split
    all_goals first | rfl | exact classCharsAux_noUC k _ _

theorem parseClassTail_noUC (negated : Bool) (st : PState) :
    isUCErr (parseClassTail negated st) = false := by
  unfold parseClassTail
  refine isUCErr_bind (classCharsAux_noUC _ _ _) ?_
  intro a st1
  split <;> rfl

theorem parseCharacterClass_noUC (st : PState) : isUCErr (parseCharacterClass st) = false := by
  unfold parseCharacterClass
  try dsimp only
  repeat' split
  all_goals first | rfl | exact parseClassTail_noUC _ _

theorem parseUnicodeCategory_noUC (negated : Bool) (st : PState) :
    isUCErr (parseUnicodeCategory negated st) = false := by
  unfold parseUnicodeCategory
  try dsimp only
  repeat' split
  all_goals rfl

theorem parseEscape_noUC (st : PState) : isUCErr (parseEscape st) = false := by
  unfold parseEscape
  try dsimp only
  repeat' split
  all_goals try rfl
  all_goals first
    | exact parseUnicodeCategory_noUC _ _
    | (refine isUCErr_bind (parseGroupName_noUC _) ?_; intro a st1; rfl)
    | (refine isUCErr_bind (parseHexAux_noUC _ _ _) ?_; intro a st1; rfl)
    | (refine isUCErr_bind (parseUnicodeValue_noUC _) ?_; intro a st1; split <;> rfl)

theorem parseCurlyQuantifier_noUC (st : PState) :
    isUCErr (parseCurlyQuantifier st) = false := by
  unfold parseCurlyQuantifier
  try dsimp only
  repeat' split
  all_goals rfl

theorem tryParseQuantifier_noUC (st : PState) : isUCErr (tryParseQuantifier st) = false := by
  unfold tryParseQuantifier
  try dsimp only
  repeat' split
  all_goals first
    | rfl
    | (refine isUCErr_bind (parseCurlyQuantifier_noUC _) ?_; intro a st1; rfl)

theorem expectCloseParen_noUC (node : RegexNode) (st : PState) :
    isUCErr (expectCloseParen node st) = false := by
  unfold expectCloseParen
  try dsimp only
  repeat' split
  all_goals rfl

theorem finalizeAlternatives_noUC (alts : List (List RegexNode)) (st : PState) :
    isUCErr (finalizeAlternatives alts st) = false := by
  unfold finalizeAlternatives
  try dsimp only
  repeat' split
  all_goals rfl

theorem quantWrap_noUC (node : RegexNode) (st1 : PState) :
    isUCErr (if st1.isEof then Res.ok node st1
      else Res.bind (tryParseQuantifier st1) (fun q st2 =>
        match q with
        | some quant => Res.ok (RegexNode.Quantified node quant) st2
        | none => Res.ok node st2)) = false := by
  split
  · rfl
  · refine isUCErr_bind (tryParseQuantifier_noUC _) ?_
    intro q st2
    cases q <;> rfl

theorem noUCMaster : ∀ fuel : Nat,
    (∀ st, isUCErr (parseAlternation fuel st) = false) ∧
    (∀ alts st, isUCErr (parseAltLoop fuel alts st) = false) ∧
    (∀ st, isUCErr (parseNode fuel st) = false) ∧
    (∀ st, isUCErr (parseGroup fuel st) = false) := by
  intro fuel
  induction fuel with
  | zero => exact ⟨fun _ => rfl, fun _ _ => rfl, fun _ => rfl, fun _ => rfl⟩
  | succ fuel ih =>
    obtain ⟨ihA, ihL, ihN, ihG⟩ := ih
    refine ⟨?_, ?_, ?_, ?_⟩
    · intro st
      simp only [parseAlternation]
      exact isUCErr_bind (ihL _ _) (fun alts st1 => finalizeAlternatives_noUC _ _)
    · intro alts st
      simp only [parseAltLoop]
      repeat' split
      all_goals first
        | rfl
        | exact ihL _ _
        | exact isUCErr_bind (ihN _) (fun node st1 => ihL _ _)
    · intro st
      simp only [parseNode]
      repeat' split
      all_goals try rfl
      all_goals refine isUCErr_bind ?_ (fun node st1 => quantWrap_noUC node st1)
      all_goals first
        | rfl
        | exact parseEscape_noUC _
        | exact parseCharacterClass_noUC _
        | exact ihG _
    · intro st
      simp only [parseGroup]
      try dsimp only
      repeat' split
      all_goals try rfl
      all_goals first
        | exact isUCErr_bind (ihA _) (fun nodes st3 => expectCloseParen_noUC _ _)
        | (refine isUCErr_bind (parseGroupName_noUC _) ?_
           intro name st4
           exact isUCErr_bind (ihA _) (fun nodes st5 => expectCloseParen_noUC _ _))


/-! ### further helper lemmas -/

theorem currentOpt_some_not_eof {st : PState} {c : Char} (h : st.currentOpt = some c) :
    st.isEof = false := by
  unfold PState.currentOpt at h
  rcases List.get?_eq_some.mp h with ⟨hlt, _⟩
  simpa [PState.isEof, Nat.not_le] using hlt

theorem parseEscape_digit_backreference {st : PState} {c : Char}
    (hcur : st.currentOpt = some c)
    (hdig : c = '1' ∨ c = '2' ∨ c = '3' ∨ c = '4' ∨ c = '5' ∨
            c = '6' ∨ c = '7' ∨ c = '8' ∨ c = '9') :
    parseEscape st =
      (if (parseNumber st).1 = 0 ∨ st.group_count < (parseNumber st).1
       then .err .InvalidBackreference
       else .ok (.Backreference (.NumberBased (parseNumber st).1)) (parseNumber st).2) := by
  have hne := currentOpt_some_not_eof hcur
  rcases hdig with rfl | rfl | rfl | rfl | rfl | rfl | rfl | rfl | rfl <;>
    (simp only [parseEscape, hne, hcur]; rfl)

theorem obfuscateList_eq_map : ∀ ns : List RegexNode, obfuscateList ns = ns.map obfuscateNode
  | [] => rfl
  | n :: ns => by
    simp only [obfuscateList, List.map_cons]
    exact congrArg _ (obfuscateList_eq_map ns)

theorem finalize_multi_empty {alts : List (List RegexNode)} {st : PState}
    (hlen : 1 < alts.length) (hex : ∃ a ∈ alts, a = []) :
    finalizeAlternatives alts st = .err .EmptyAlternation := by
  obtain ⟨a, ha, rfl⟩ := hex
  unfold finalizeAlternatives
  rw [if_pos hlen, if_pos (List.any_eq_true.mpr ⟨[], ha, rfl⟩)]

theorem finalize_multi_ok {alts : List (List RegexNode)} {st : PState}
    (hlen : 1 < alts.length) (hall : ∀ a ∈ alts, a ≠ []) :
    finalizeAlternatives alts st = .ok [RegexNode.Alternation alts] st := by
  unfold finalizeAlternatives
  rw [if_pos hlen, if_neg]
  intro hany
  obtain ⟨a, ha, hemp⟩ := List.any_eq_true.mp hany
  exact hall a ha (List.isEmpty_iff.mp hemp)

/-! ## Claim theorems -/

/-- C1 (code bug): the round-trip property fails on the code. The accepted
pattern `\(` parses to `Literal '('`, prints (escapes disabled) as `(`, and
re-parsing that errs with `UnclosedGroup`; the accepted pattern `(a)\1`
prints as `(a)` because the backreference renders empty, so re-parsing drops
the backreference node. -/
theorem roundtrip_fails_on_accepted_patterns :
    (Parser.parse "\\(").value = some [RegexNode.Literal '('] ∧
    Printer.print false [RegexNode.Literal '('] = "(" ∧
    Parser.parse "(" = .err .UnclosedGroup ∧
    (Parser.parse "(a)\\1").value =
      some [RegexNode.Group (.Capturing none) [.Literal 'a'],
            .Backreference (.NumberBased 1)] ∧
    Printer.print false
      [RegexNode.Group (.Capturing none) [.Literal 'a'],
       RegexNode.Backreference (.NumberBased 1)] = "(a)" ∧
    (Parser.parse "(a)").value = some [RegexNode.Group (.Capturing none) [.Literal 'a']] :=
  ⟨rfl, rfl, rfl, rfl, rfl, rfl⟩

/-- C2 (code bug): `Parser::parse` does not always return a `Result`: on the
inputs `[`, `(?` and `\p{` the unguarded `self.input[self.position]` in
`current` indexes out of bounds and the process aborts (modelled as
`.fault`), instead of returning an error variant. -/
theorem parser_aborts_on_truncated_input :
    Parser.parse "[" = .fault ∧
    Parser.parse "(?" = .fault ∧
    Parser.parse "\\p\x7b" = .fault :=
  ⟨rfl, rfl, rfl⟩

/-- C3 (code bug): no inline-flag branch exists in `parse_group`, so every
flag form the spec (and the repo's own tests) expect to produce a `FlagSet`
is rejected with `InvalidGroupSyntax`. -/
theorem inline_flags_rejected :
    Parser.parse "(?i)abc" = .err .InvalidGroupSyntax ∧
    Parser.parse "(?i:foo)bar" = .err .InvalidGroupSyntax ∧
    Parser.parse "(?im)abc" = .err .InvalidGroupSyntax ∧
    Parser.parse "(?s)a.c" = .err .InvalidGroupSyntax :=
  ⟨rfl, rfl, rfl, rfl⟩

/-- C4 (code bug): `print_node` is not gap-free: the catch-all arm renders
`Backreference`, `UnicodeCategory`, `Lookaround` and `FlagSet` as the empty
string. -/
theorem print_node_empty_on_four_variants :
    printNode false (.Backreference (.NumberBased 1)) = "" ∧
    printNode true (.Backreference (.NameBased "x")) = "" ∧
    printNode false (.UnicodeCategory false .Letter) = "" ∧
    printNode false (.Lookaround .PositiveLookahead [.Literal 'a']) = "" ∧
    printNode false (.FlagSet ⟨true, false, false⟩ [.Literal 'a']) = "" :=
  ⟨rfl, rfl, rfl, rfl, rfl⟩

/-- C5 counterexample: the obfuscator turns the parsed singleton class `[a]`
into an `Alternation` with exactly one branch (and an empty class into one
with zero branches), violating the claimed at-least-2-branch invariant. -/
theorem obfuscator_builds_single_branch_alternation :
    (Parser.parse "[a]").value = some [RegexNode.CharacterClass false ['a']] ∧
    Obfuscator.obfuscate [RegexNode.CharacterClass false ['a']] =
      [RegexNode.Group .NonCapturing
        [RegexNode.Alternation [[RegexNode.CharacterClass false ['a']]]]] ∧
    [[RegexNode.CharacterClass false ['a']]].length = 1 ∧
    Obfuscator.obfuscate [RegexNode.CharacterClass false []] =
      [RegexNode.Group .NonCapturing [RegexNode.Alternation []]] :=
  ⟨rfl, rfl, rfl, rfl⟩

/-- C5 amended: every tree produced by `Parser::parse` satisfies the
invariant (every `Alternation` has at least 2 branches, none empty); the
obfuscator does not preserve it, building one branch per member of a
non-negated class. -/
theorem parse_trees_alternation_invariant :
    (∀ (pattern : String) (ns : List RegexNode) (st' : PState),
      Parser.parse pattern = .ok ns st' → GoodList ns) ∧
    (∀ chars : List Char,
      obfuscateNode (RegexNode.CharacterClass false chars) =
        RegexNode.Group .NonCapturing
          [RegexNode.Alternation (chars.map (fun c => [RegexNode.CharacterClass false [c]]))]) :=
  ⟨fun _ _ _ h => (goodMaster _).1 _ _ _ h, fun _ => rfl⟩

/-- Witness for C5: instantiating the invariant on the parse of `a|b`. -/
theorem parse_trees_alternation_invariant_witness :
    GoodList [RegexNode.Alternation [[.Literal 'a'], [.Literal 'b']]] ∧
    obfuscateNode (RegexNode.CharacterClass false ['a']) =
      RegexNode.Group .NonCapturing
        [RegexNode.Alternation [[RegexNode.CharacterClass false ['a']]]] :=
  ⟨parse_trees_alternation_invariant.1 "a|b"
      [RegexNode.Alternation [[.Literal 'a'], [.Literal 'b']]] ⟨['a', '|', 'b'], 3, 0⟩ rfl,
   parse_trees_alternation_invariant.2 ['a']⟩

/-- C6 counterexample: `(?<x>a)` opens a capturing group, yet `\1` after it
is rejected, because `group_count` only counts unnamed groups. -/
theorem named_group_backreference_rejected :
    Parser.parse "(?<x>a)\\1" = .err .InvalidBackreference ∧
    (Parser.parse "(?<x>a)").value =
      some [RegexNode.Group (.Capturing (some "x")) [.Literal 'a']] :=
  ⟨rfl, rfl⟩

/-- C6 amended: a numeric escape starting with a nonzero digit parses to
`NumberBased(n)` exactly when `1 ≤ n ≤ group_count`, where `group_count`
counts only unnamed capturing groups opened so far, and fails with
`InvalidBackreference` otherwise; `(a)\1` succeeds, `(a)\2` fails. -/
theorem numeric_backreference_validation :
    (Parser.parse "(a)\\1").value =
      some [RegexNode.Group (.Capturing none) [.Literal 'a'],
            .Backreference (.NumberBased 1)] ∧
    Parser.parse "(a)\\2" = .err .InvalidBackreference ∧
    (∀ (st : PState) (c : Char), st.currentOpt = some c →
      (c = '1' ∨ c = '2' ∨ c = '3' ∨ c = '4' ∨ c = '5' ∨
       c = '6' ∨ c = '7' ∨ c = '8' ∨ c = '9') →
      parseEscape st =
        (if (parseNumber st).1 = 0 ∨ st.group_count < (parseNumber st).1
         then .err .InvalidBackreference
         else .ok (.Backreference (.NumberBased (parseNumber st).1)) (parseNumber st).2)) :=
  ⟨rfl, rfl, fun _ _ hcur hdig => parseEscape_digit_backreference hcur hdig⟩

/-- Witness for C6: the digit-run rule applied at a concrete state with
`group_count = 3`, reading the escape `\2`. -/
theorem numeric_backreference_validation_witness :
    parseEscape ⟨['2'], 0, 3⟩ = .ok (.Backreference (.NumberBased 2)) ⟨['2'], 1, 3⟩ := by
  rw [numeric_backreference_validation.2.2 ⟨['2'], 0, 3⟩ '2' rfl
      (Or.inr (Or.inl rfl))]
  rfl

/-- C7 (confirmed): `parse_alternation` finalizes its collected branches so
that two-or-more branches with one empty fail with `EmptyAlternation`
(hence `a||b` fails), all-non-empty branches wrap in a single `Alternation`
returned as a one-element sequence, and a single branch returns directly. -/
theorem alternation_finalization :
    Parser.parse "a||b" = .err .EmptyAlternation ∧
    (∀ (fuel : Nat) (st : PState), parseAlternation (fuel + 1) st =
      Res.bind (parseAltLoop fuel [[]] st) finalizeAlternatives) ∧
    (∀ (alts : List (List RegexNode)) (st : PState), 1 < alts.length →
      (∃ a ∈ alts, a = []) → finalizeAlternatives alts st = .err .EmptyAlternation) ∧
    (∀ (alts : List (List RegexNode)) (st : PState), 1 < alts.length →
      (∀ a ∈ alts, a ≠ []) →
      finalizeAlternatives alts st = .ok [RegexNode.Alternation alts] st) ∧
    (∀ (a : List RegexNode) (st : PState), finalizeAlternatives [a] st = .ok a st) :=
  ⟨rfl, fun _ _ => rfl,
   fun _ _ hlen hex => finalize_multi_empty hlen hex,
   fun _ _ hlen hall => finalize_multi_ok hlen hall,
   fun _ _ => rfl⟩

/-- Witness for C7: the finalization rules at concrete branch lists. -/
theorem alternation_finalization_witness :
    finalizeAlternatives [[RegexNode.Literal 'a'], []] ⟨[], 0, 0⟩ =
      .err .EmptyAlternation ∧
    finalizeAlternatives [[RegexNode.Literal 'a'], [RegexNode.Literal 'b']] ⟨[], 0, 0⟩ =
      .ok [RegexNode.Alternation [[RegexNode.Literal 'a'], [RegexNode.Literal 'b']]] ⟨[], 0, 0⟩ ∧
    finalizeAlternatives [[RegexNode.Dot]] ⟨[], 0, 0⟩ = .ok [RegexNode.Dot] ⟨[], 0, 0⟩ :=
  ⟨alternation_finalization.2.2.1 _ _ (by simp) ⟨[], by simp, rfl⟩,
   alternation_finalization.2.2.2.1 _ _ (by simp) (by simp),
   alternation_finalization.2.2.2.2 _ _⟩

/-- C8 counterexample: a `Literal` nested inside a `Lookaround` or `FlagSet`
is left untouched by `obfuscate_node` (the wrapper is returned as-is),
although the same `Literal` on its own is rewritten to a class. -/
theorem obfuscator_skips_lookaround_and_flagset :
    obfuscateNode (RegexNode.Lookaround .PositiveLookahead [RegexNode.Literal 'a']) =
      RegexNode.Lookaround .PositiveLookahead [RegexNode.Literal 'a'] ∧
    obfuscateNode (RegexNode.FlagSet ⟨true, false, false⟩ [RegexNode.Literal 'a']) =
      RegexNode.FlagSet ⟨true, false, false⟩ [RegexNode.Literal 'a'] ∧
    obfuscateNode (RegexNode.Literal 'a') = RegexNode.CharacterClass false ['a'] :=
  ⟨rfl, rfl, rfl⟩

/-- C8 amended: `obfuscate_node` recurses into the children of `Group`
keeping the kind, but returns `Lookaround` and `FlagSet` nodes unchanged
(no recursion into their children). -/
theorem obfuscator_wrapper_behaviour :
    (∀ (kind : GroupKind) (ns : List RegexNode),
      obfuscateNode (RegexNode.Group kind ns) =
        RegexNode.Group kind (ns.map obfuscateNode)) ∧
    (∀ (kind : LookaroundKind) (ns : List RegexNode),
      obfuscateNode (RegexNode.Lookaround kind ns) = RegexNode.Lookaround kind ns) ∧
    (∀ (flags : RegexFlags) (ns : List RegexNode),
      obfuscateNode (RegexNode.FlagSet flags ns) = RegexNode.FlagSet flags ns) :=
  ⟨fun kind ns => by rw [show obfuscateNode (RegexNode.Group kind ns) =
        RegexNode.Group kind (obfuscateList ns) from rfl, obfuscateList_eq_map],
   fun _ _ => rfl, fun _ _ => rfl⟩

/-- C9 (confirmed): `transform(parse("[abc]"))` is a `NonCapturing` group
wrapping a 3-branch `Alternation` of single-member classes; every `Literal`
is rewritten to a single-member class; printing the transformed tree with
escapes enabled renders each member as a `\u{HEX}` escape. -/
theorem obfuscate_class_and_print :
    (Parser.parse "[abc]").value = some [RegexNode.CharacterClass false ['a', 'b', 'c']] ∧
    Obfuscator.obfuscate [RegexNode.CharacterClass false ['a', 'b', 'c']] =
      [RegexNode.Group .NonCapturing [RegexNode.Alternation
        [[RegexNode.CharacterClass false ['a']], [RegexNode.CharacterClass false ['b']],
         [RegexNode.CharacterClass false ['c']]]]] ∧
    (∀ c : Char, obfuscateNode (RegexNode.Literal c) = RegexNode.CharacterClass false [c]) ∧
    Printer.print true
      [RegexNode.Group .NonCapturing [RegexNode.Alternation
        [[RegexNode.CharacterClass false ['a']], [RegexNode.CharacterClass false ['b']],
         [RegexNode.CharacterClass false ['c']]]]] =
      "(?:[\\u\x7b61\x7d]|[\\u\x7b62\x7d]|[\\u\x7b63\x7d])" :=
  ⟨rfl, rfl, fun _ => rfl, rfl⟩

/-- C10 counterexample: `a|)b` contains an unmatched top-level `)` yet
`parse` does not return `Ok` of the prefix: the empty second branch makes it
fail with `EmptyAlternation`. -/
theorem unmatched_paren_after_empty_branch :
    Parser.parse "a|)b" = .err .EmptyAlternation :=
  rfl

/-- C10 amended: an unmatched top-level `)` stops parsing, silently
discarding it and the rest of the input whenever the prefix finalizes
cleanly (`a)b` parses to just `Literal 'a'`); and no code path of the
parser ever returns `UnexpectedCharacter`. -/
theorem unmatched_paren_ignored_and_no_unexpected_character :
    (Parser.parse "a)b").value = some [RegexNode.Literal 'a'] ∧
    (∀ pattern : String, isUCErr (Parser.parse pattern) = false) ∧
    (∀ (fuel : Nat) (st : PState), isUCErr (parseAlternation fuel st) = false) :=
  ⟨rfl, fun _ => (noUCMaster _).1 _, fun fuel st => (noUCMaster fuel).1 st⟩
